import Mathlib

/-!
Verification of the Matefish mate-solving engine (a Stockfish derivative).

The chess rule engine (move generation, legality, board state) and the
tablebase probe are external collaborators: the search code only observes
them through a fixed set of queries (number of legal moves, number of legal
king moves, check status, draw status, WDL verdicts, per-move attributes
such as rank or moved piece).  We therefore embed a position as a finite
game tree (`GPos`) whose nodes record exactly the answers those queries
return, and translate the search code of `search.cpp` over that tree.
Machine integers (`Value`, proof numbers) are modelled as `Int` / `Nat`;
the values involved stay far from any overflow boundary.
-/

namespace Matefish

/-- Modelled from the spec: `MaxPly` (types.h is not among the sources; 246 is
the upstream Stockfish value of `MAX_PLY`).  The claims settled here do not
depend on the exact value, only on it being positive and even. -/
def MAX_PLY : Nat := 246

/-- Modelled from the spec: the large positive `VMate` denoting checkmate for
the side to move (upstream Stockfish value of `VALUE_MATE`). -/
def VALUE_MATE : Int := 32000

/-- Modelled from the spec: `VInfinite > VMate` (upstream `VALUE_INFINITE`). -/
def VALUE_INFINITE : Int := 32001

/-- Modelled from the spec: `VDraw = 0`. -/
def VALUE_DRAW : Int := 0

/-- Modelled from the spec: upstream `VALUE_ZERO`, the value 0. -/
def VALUE_ZERO : Int := 0

/-- Modelled from the spec: `mated_in(ply) = -VMate + ply` (types.h). -/
def mated_in (ply : Nat) : Int := -VALUE_MATE + ply

/-- Modelled from the spec: `mate_in(ply) = VMate - ply` (types.h). -/
def mate_in (ply : Nat) : Int := VALUE_MATE - ply

/-- Piece types, as distinguished by the search code via `type_of(pos.moved_piece(m))`. -/
inductive PieceType : Type where
  | Pawn | Knight | Bishop | Rook | Queen | King
deriving DecidableEq, Repr

/-- Verdicts of the tablebase oracle (`TB::WDLScore`). -/
inductive WDL : Type where
  | Loss | BlessedLoss | Draw | CursedWin | Win
deriving DecidableEq, Repr

/-- Answers of the external rule engine about one position, as read by
`search()` and `pn_search()` in search.cpp.  `tb = some w` models a position
where the tablebase probe applies (piece count within cardinality, no
castling rights) and succeeds with verdict `w`; `tb = none` models either a
failed probe or an inapplicable one (both are treated identically by the
search). -/
structure NodeInfo : Type where
  inCheck : Bool
  isDraw : Bool
  usCount : Nat
  bishopCount : Nat
  bishopColorCond : Bool
  tb : Option WDL
deriving DecidableEq, Repr

/-- Attributes of one legal move, as read by the search: the rank computed by
`score_and_rank_moves` (the ranker itself is shared oracle state: the search
only consumes the ranked, sorted list), the moved piece's type, and the
boolean queries used by the extension and pruning logic. `canCheckNext`
stands for `attacks_from<PT>(to) & check_squares(PT)` being nonempty for the
moved piece type PT in KNIGHT/BISHOP/ROOK/QUEEN, `givesCheck` for
`pos.gives_check(m)`, and `isRootMove` for membership of the move in the main
thread's root-move share (used only by the root filter of `pn_search`). -/
structure MoveAttr : Type where
  rank : Int
  movedPiece : PieceType
  captureOrPromotion : Bool
  canCheckNext : Bool
  givesCheck : Bool
  isRootMove : Bool
deriving DecidableEq, Repr

mutual

/-- A position unfolded into a finite game tree: the oracle answers for the
position itself plus the ranked legal move list, each move carrying the
position it leads to.  The truncation depth of the tree is immaterial as long
as it covers the plies a search can visit (`MAX_PLY`, or `targetDepth` for
the proof-number search). -/
inductive GPos : Type where
  | mk : NodeInfo → GMoves → GPos

/-- The ranked legal move list of a position, in the order produced by
`score_and_rank_moves` (sorted by descending rank). -/
inductive GMoves : Type where
  | nil : GMoves
  | cons : MoveAttr → GPos → GMoves → GMoves

end

/-- Oracle answers of a position. -/
def infoOf : GPos → NodeInfo
  | .mk i _ => i

/-- Legal move list of a position. -/
def movesOf : GPos → GMoves
  | .mk _ ms => ms

/-- Number of legal moves: `MoveList<LEGAL>(pos).size()`. -/
def gLen : GMoves → Nat
  | .nil => 0
  | .cons _ _ rest => gLen rest + 1

/-- Number of legal king moves: `MoveList<LEGAL, KING>(pos).size()`.  Per
movegen.h this is the legal move list filtered by
`type_of(pos.moved_piece(m)) == KING`. -/
def kingCnt : GMoves → Nat
  | .nil => 0
  | .cons a _ rest => (if a.movedPiece = PieceType.King then 1 else 0) + kingCnt rest

/-- Search-global configuration read by `search()`: the stop flag, the UCI
options `KingMoves` / `AllMoves`, `Limits.mate`, and the per-thread depth
counters (constant during one call tree). -/
structure ABCtx : Type where
  stop : Bool
  kingMoves : Int
  allMoves : Int
  mate : Int
  targetDepth : Int
  rootDepth : Int
  fullDepth : Int
deriving DecidableEq, Repr

/-- Extension decision of `search()` (search.cpp lines 785-814): at most one
extension, only at `depth == 1`, never during the last iteration; checks
always extend, captures/promotions and potential checkers only once
`rootDepth >= fullDepth`. -/
def extensionOf (ctx : ABCtx) (ply depth : Nat) (a : MoveAttr) : Bool :=
  if depth = 1 ∧ (ply : Int) < ctx.targetDepth - 1 ∧ ctx.rootDepth < ctx.targetDepth then
    if 6000 ≤ a.rank then true
    else if ctx.fullDepth ≤ ctx.rootDepth then a.captureOrPromotion || a.canCheckNext
    else false
  else false

/-- Bishop-explosion guard of `search()` (search.cpp lines 816-826): on
defender plies with many same-coloured bishops, skip bishop moves after five
tried moves. -/
def bishopSkip (info : NodeInfo) (ply depth moveCount : Nat) (a : MoveAttr) : Bool :=
  decide (ply % 2 = 1 ∧ 1 < depth ∧ 5 < moveCount ∧ 3 < info.bishopCount ∧
    a.movedPiece = PieceType.Bishop ∧ info.bishopColorCond = true)

/-- Attacker low-iteration skip of `search()` (search.cpp lines 828-850):
at lower iterations skip unpromising attacker moves; the inner chain uses the
rank thresholds 6000, 2000 and 0 by iteration band. -/
def attackerSkip (ctx : ABCtx) (ply : Nat) (ext : Bool) (moveCount depth : Nat)
    (rank : Int) : Bool :=
  decide (ply % 2 = 0 ∧ ext = false ∧ moveCount ≠ 0 ∧ 1 < depth ∧
    7 ≤ ctx.targetDepth ∧ 3 < ctx.rootDepth ∧ ctx.rootDepth < ctx.targetDepth) &&
  (if ctx.rootDepth < ctx.targetDepth - 4 ∧ rank < 6000 then true
   else if ctx.rootDepth < ctx.targetDepth - 2 ∧ rank < 2000 then true
   else if ctx.rootDepth < ctx.targetDepth ∧ rank < 0 then true
   else false)

/-- Root-move rank filter of `Thread::search()` (search.cpp lines 458-473):
the cutoff thresholds applied to `tbRank` at the root are 8000, 4000 and 0 by
iteration band. -/
def rootBandSkip (targetDepth rootDepth tbRank : Int) : Bool :=
  decide (7 < targetDepth ∧ 3 < rootDepth ∧ rootDepth < targetDepth) &&
  (if rootDepth < targetDepth - 4 ∧ tbRank < 8000 then true
   else if rootDepth < targetDepth - 2 ∧ tbRank < 4000 then true
   else if rootDepth < targetDepth ∧ tbRank < 0 then true
   else false)

/-- Attacker low-iteration skip as claim C3 states it (this definition follows
the claim's words, not the source, and exists only to be compared against
`attackerSkip`): the conditions listed by the claim with the root thresholds
8000, 4000 and 0 applied to the move's rank. -/
def attackerSkipClaim (ctx : ABCtx) (ply : Nat) (ext : Bool) (moveCount depth : Nat)
    (rank : Int) : Bool :=
  decide (ply % 2 = 0 ∧ ext = false ∧ moveCount ≠ 0 ∧ 1 < depth ∧ 7 ≤ ctx.targetDepth) &&
  (if ctx.rootDepth < ctx.targetDepth - 4 ∧ rank < 8000 then true
   else if ctx.rootDepth < ctx.targetDepth - 2 ∧ rank < 4000 then true
   else if ctx.rootDepth < ctx.targetDepth ∧ rank < 0 then true
   else false)

/-- Tablebase cut of `search()` (search.cpp lines 750-772): on a defender ply
any verdict other than a loss for the side to move yields `VALUE_DRAW`; on an
attacker ply any verdict other than a win does. -/
def tbCutsDraw (ply : Nat) (tb : Option WDL) : Bool :=
  match tb with
  | none => false
  | some w =>
    if ply % 2 = 1 then decide (¬(w = WDL.Loss ∨ w = WDL.BlessedLoss))
    else decide (¬(w = WDL.Win ∨ w = WDL.CursedWin))

mutual

/-- Translation of the recursive `search(pos, ss, alpha, beta, depth)` of
search.cpp (lines 682-913).  The stop flag is a context constant (time
management effects are not modelled); output and PV bookkeeping, which do not
influence the returned value, are dropped. -/
def search (ctx : ABCtx) : GPos → Nat → Int → Int → Nat → Int
  | .mk info moves, ply, alpha, beta, depth =>
    if ctx.stop = true ∨ ply = MAX_PLY then VALUE_ZERO
    else if depth = 0 then
      if info.inCheck = true ∧ gLen moves = 0 then mated_in ply else VALUE_DRAW
    else if ply % 2 = 1 ∧ ctx.kingMoves < 8 ∧ ctx.kingMoves < (kingCnt moves : Int) then
      VALUE_DRAW
    else if ply % 2 = 1 ∧ ctx.allMoves < 250 ∧ ctx.allMoves < (gLen moves : Int) then
      VALUE_DRAW
    else if ply % 2 = 0 ∧ info.usCount = 1 then VALUE_DRAW
    else if info.isDraw = true then VALUE_DRAW
    else if tbCutsDraw ply info.tb = true then VALUE_DRAW
    else searchLoop ctx info ply beta depth moves alpha (-VALUE_INFINITE) 0

/-- Translation of the move loop of `search()` (search.cpp lines 783-912),
with the loop state `alpha`, `bestValue`, `moveCount` made explicit.  The
final `.nil` case is the fall-through after the loop: with no tried move the
node is mate or stalemate. -/
def searchLoop (ctx : ABCtx) (info : NodeInfo) (ply : Nat) (beta : Int) (depth : Nat) :
    GMoves → Int → Int → Nat → Int
  | .nil, _alpha, bestValue, moveCount =>
    if moveCount = 0 then
      if info.inCheck = true then mated_in ply else VALUE_DRAW
    else bestValue
  | .cons a child rest, alpha, bestValue, moveCount =>
    let ext := extensionOf ctx ply depth a
    if bishopSkip info ply depth moveCount a = true then
      searchLoop ctx info ply beta depth rest alpha bestValue moveCount
    else if attackerSkip ctx ply ext moveCount depth a.rank = true then
      searchLoop ctx info ply beta depth rest alpha bestValue moveCount
    else if depth = 1 ∧ ext = false ∧ a.rank < 6000 then
      searchLoop ctx info ply beta depth rest alpha bestValue moveCount
    else
      let value := - search ctx child (ply + 1) (-beta) (-alpha)
        (depth - 1 + 2 * (if ext = true then 1 else 0))
      if bestValue < value then
        if beta ≤ value then value
        else
          let alpha1 := if alpha < value then value else alpha
          if VALUE_MATE - 2 * ctx.mate < value then value
          else searchLoop ctx info ply beta depth rest alpha1 value (moveCount + 1)
      else
        if VALUE_MATE - 2 * ctx.mate < bestValue then bestValue
        else searchLoop ctx info ply beta depth rest alpha bestValue (moveCount + 1)

end

/-- Sample context for witnesses of the alpha/beta claims. -/
def abCtx1 : ABCtx := ⟨false, 8, 250, 3, 5, 3, 1⟩

/-- Sample checkmated position: in check, no legal moves. -/
def matedPos : GPos := .mk ⟨true, false, 2, 0, false, none⟩ .nil

/-- Sample defender position with nine legal king moves (impossible over a real
board, but only the counts reach the code under test). -/
def busyPos : GPos :=
  .mk ⟨false, false, 5, 0, false, none⟩
    (.cons ⟨0, .King, false, false, false, true⟩ matedPos
      (.cons ⟨0, .King, false, false, false, true⟩ matedPos
        (.cons ⟨0, .King, false, false, false, true⟩ matedPos
          (.cons ⟨0, .King, false, false, false, true⟩ matedPos
            (.cons ⟨0, .King, false, false, false, true⟩ matedPos
              (.cons ⟨0, .King, false, false, false, true⟩ matedPos
                (.cons ⟨0, .King, false, false, false, true⟩ matedPos
                  (.cons ⟨0, .King, false, false, false, true⟩ matedPos
                    (.cons ⟨0, .King, false, false, false, true⟩ matedPos .nil)))))))))

/-- C1: in `search`, a call with `depth == 0` (search not stopped, `ply <
MAX_PLY`) returns `mated_in(ply)` when the side to move is in check without a
legal move, and `VALUE_DRAW` otherwise (search.cpp lines 720-728). -/
theorem claim_C1 (ctx : ABCtx) (pos : GPos) (ply : Nat) (alpha beta : Int)
    (hstop : ctx.stop = false) (hply : ply < MAX_PLY) :
    search ctx pos ply alpha beta 0 =
      if (infoOf pos).inCheck = true ∧ gLen (movesOf pos) = 0 then mated_in ply
      else VALUE_DRAW := by
  cases pos with
  | mk info moves =>
    rw [search]
    simp [hstop, Nat.ne_of_lt hply, infoOf, movesOf]

/-- Witness for C1 at a concrete mated position. -/
theorem claim_C1_witness :
    abCtx1.stop = false ∧ 4 < MAX_PLY ∧
    search abCtx1 matedPos 4 (-32001) 32001 0 =
      (if (infoOf matedPos).inCheck = true ∧ gLen (movesOf matedPos) = 0 then mated_in 4
       else VALUE_DRAW) :=
  ⟨rfl, by decide, claim_C1 abCtx1 matedPos 4 (-32001) 32001 rfl (by decide)⟩

/-- C2: in `search` with `depth > 0`, on an odd (defender) ply, exceeding the
`KingMoves` cap (when configured below 8) returns `VALUE_DRAW`, and exceeding
the `AllMoves` cap (when configured below 250) returns `VALUE_DRAW`
(search.cpp lines 730-739). -/
theorem claim_C2 (ctx : ABCtx) (pos : GPos) (ply : Nat) (alpha beta : Int) (depth : Nat)
    (hdepth : depth ≠ 0) (hodd : ply % 2 = 1) :
    (ctx.kingMoves < 8 → ctx.kingMoves < (kingCnt (movesOf pos) : Int) →
      search ctx pos ply alpha beta depth = VALUE_DRAW) ∧
    (ctx.allMoves < 250 → ctx.allMoves < (gLen (movesOf pos) : Int) →
      search ctx pos ply alpha beta depth = VALUE_DRAW) := by
  cases pos with
  | mk info moves =>
    rw [search]
    constructor
    · intro h1 h2
      split_ifs <;> simp_all [movesOf, VALUE_ZERO, VALUE_DRAW]
    · intro h1 h2
      split_ifs <;> simp_all [movesOf, VALUE_ZERO, VALUE_DRAW]

/-- Witness for C2: a defender ply with nine legal king moves under the
default caps (`KingMoves = 8` is disabled, so only a tighter sample context
exercises the cap). -/
theorem claim_C2_witness :
    (2 : Nat) ≠ 0 ∧ 3 % 2 = 1 ∧
    ((⟨false, 4, 250, 3, 5, 3, 1⟩ : ABCtx).kingMoves < 8 ∧
      (⟨false, 4, 250, 3, 5, 3, 1⟩ : ABCtx).kingMoves < (kingCnt (movesOf busyPos) : Int)) ∧
    search ⟨false, 4, 250, 3, 5, 3, 1⟩ busyPos 3 (-32001) 32001 2 = VALUE_DRAW :=
  ⟨by decide, by decide, ⟨by decide, by decide⟩,
    (claim_C2 ⟨false, 4, 250, 3, 5, 3, 1⟩ busyPos 3 (-32001) 32001 2
      (by decide) (by decide)).1 (by decide) (by decide)⟩

/-- C3 counterexample: the in-search attacker skip does not use the root's
rank cutoffs.  At `targetDepth = 9`, `rootDepth = 4`, a move of rank 6500
with one move already tried at an even ply with `depth = 2`: the root filter
(8000 band, as the claim states) would skip it, but `search`'s own skip
(6000 band) does not. -/
theorem claim_C3_counterexample :
    attackerSkip ⟨false, 8, 250, 5, 9, 4, 5⟩ 2 false 1 2 6500 = false ∧
    attackerSkipClaim ⟨false, 8, 250, 5, 9, 4, 5⟩ 2 false 1 2 6500 = true ∧
    rootBandSkip 9 4 6500 = true := by
  refine ⟨by decide, by decide, by decide⟩

/-- C3 amended: on attacker plies with `depth > 1`, `targetDepth >= 7`,
`3 < rootDepth < targetDepth` and at least one move already tried, the move
loop of `search` skips a move (leaving all loop state unchanged) according to
the rank thresholds 6000 (when `rootDepth < targetDepth - 4`), 2000 (when
`rootDepth < targetDepth - 2`) and 0 (when `rootDepth < targetDepth`) —
lower than the root cutoffs 8000/4000/0 (search.cpp lines 828-850). -/
theorem claim_C3_amended (ctx : ABCtx) (info : NodeInfo) (ply : Nat) (beta : Int)
    (depth : Nat) (a : MoveAttr) (child : GPos) (rest : GMoves)
    (alpha bestValue : Int) (moveCount : Nat)
    (heven : ply % 2 = 0) (hmc : moveCount ≠ 0) (hdepth : 1 < depth)
    (htd : 7 ≤ ctx.targetDepth) (hrd : 3 < ctx.rootDepth)
    (hrt : ctx.rootDepth < ctx.targetDepth)
    (hband : (ctx.rootDepth < ctx.targetDepth - 4 ∧ a.rank < 6000) ∨
      (ctx.rootDepth < ctx.targetDepth - 2 ∧ a.rank < 2000) ∨ a.rank < 0) :
    searchLoop ctx info ply beta depth (.cons a child rest) alpha bestValue moveCount =
    searchLoop ctx info ply beta depth rest alpha bestValue moveCount := by
  have hnd : ¬(depth = 1 ∧ (ply : Int) < ctx.targetDepth - 1 ∧
      ctx.rootDepth < ctx.targetDepth) := by
    rintro ⟨h1, -⟩
    omega
  have hext : extensionOf ctx ply depth a = false := by
    simp only [extensionOf, if_neg hnd]
  have hbs : bishopSkip info ply depth moveCount a = false := by
    simp only [bishopSkip, decide_eq_false_iff_not]
    rintro ⟨h1, -⟩
    omega
  have has : attackerSkip ctx ply false moveCount depth a.rank = true := by
    unfold attackerSkip
    rw [Bool.and_eq_true, decide_eq_true_eq]
    constructor
    · exact ⟨heven, rfl, hmc, hdepth, htd, hrd, hrt⟩
    · rcases hband with ⟨hb1, hb2⟩ | ⟨hb1, hb2⟩ | hb1
      · rw [if_pos ⟨hb1, hb2⟩]
      · by_cases h1 : ctx.rootDepth < ctx.targetDepth - 4 ∧ a.rank < 6000
        · rw [if_pos h1]
        · rw [if_neg h1, if_pos ⟨hb1, hb2⟩]
      · by_cases h1 : ctx.rootDepth < ctx.targetDepth - 4 ∧ a.rank < 6000
        · rw [if_pos h1]
        · rw [if_neg h1]
          by_cases h2 : ctx.rootDepth < ctx.targetDepth - 2 ∧ a.rank < 2000
          · rw [if_pos h2]
          · rw [if_neg h2, if_pos ⟨hrt, hb1⟩]
  rw [searchLoop]
  simp [hext, hbs, has]

/-- Witness for C3 amended: a rank-1500 attacker move with `rootDepth = 5`,
`targetDepth = 9` is skipped by the move loop. -/
theorem claim_C3_amended_witness :
    (2 % 2 = 0 ∧ (1 : Nat) ≠ 0 ∧ 1 < 2 ∧ (7 : Int) ≤ 9 ∧ (3 : Int) < 5 ∧ (5 : Int) < 9 ∧
      ((5 : Int) < 9 - 2 ∧ (1500 : Int) < 2000)) ∧
    searchLoop ⟨false, 8, 250, 5, 9, 5, 5⟩ ⟨false, false, 5, 0, false, none⟩ 2 32001 2
      (.cons ⟨1500, .Queen, false, false, false, true⟩ matedPos .nil) (-32001) (-32001) 1 =
    searchLoop ⟨false, 8, 250, 5, 9, 5, 5⟩ ⟨false, false, 5, 0, false, none⟩ 2 32001 2
      .nil (-32001) (-32001) 1 :=
  ⟨by decide,
    claim_C3_amended ⟨false, 8, 250, 5, 9, 5, 5⟩ ⟨false, false, 5, 0, false, none⟩ 2 32001 2
      ⟨1500, .Queen, false, false, false, true⟩ matedPos .nil (-32001) (-32001) 1
      (by decide) (by decide) (by decide) (by decide) (by decide) (by decide)
      (Or.inr (Or.inl (by decide)))⟩

/-- Proof-number infinity sentinel `INFINITE = UINT32_MAX / 2` (search.cpp
line 62). -/
def INFINITE : Nat := 2147483647

/-- Configuration read by `pn_search()`: the `KingMoves` option, the target
depth `min(2 * Limits.mate - 1, MAX_PLY - 1)` and the arena capacity
`nodeCount` (search.cpp lines 926-954). -/
structure PnsCtx : Type where
  kingMoves : Int
  targetDepth : Nat
  nodeCount : Nat
deriving DecidableEq, Repr

/-- Arena bookkeeping of `pn_search()`: the bump index of `nextNode` inside
the node table, the size of the FIFO recycling bin, the global stop flag and
whether the out-of-memory info string has been emitted.  Node payloads live
in the logical tree (`PTree`); the aliasing of recycled slots is not
re-modelled because a recycled slot is only written through `nextNode` while
it is no longer reachable from any live selection path. -/
structure Arena : Type where
  nextIdx : Nat
  binSize : Nat
  stop : Bool
  oomMsg : Bool
deriving DecidableEq, Repr

mutual

/-- A node of the proof-number search tree: proof number, disproof number,
the underlying position, and the linked child list (`firstChild` /
`nextSibling` flattened into a list; an empty list is the `firstChild ==
rootNode` sentinel state). -/
inductive PTree : Type where
  | mk : Nat → Nat → GPos → PForest → PTree

/-- Sibling list of proof-number search nodes, in creation order. -/
inductive PForest : Type where
  | nil : PForest
  | cons : PTree → PForest → PForest

end

/-- Proof number of a node (`get_pn()`). -/
def pnOf : PTree → Nat
  | .mk pn _ _ _ => pn

/-- Disproof number of a node (`get_dn()`). -/
def dnOf : PTree → Nat
  | .mk _ dn _ _ => dn

/-- Position a node stands for. -/
def posOf : PTree → GPos
  | .mk _ _ p _ => p

/-- Children of a node. -/
def kidsOf : PTree → PForest
  | .mk _ _ _ k => k

/-- Number of nodes in a sibling list. -/
def forestLen : PForest → Nat
  | .nil => 0
  | .cons _ rest => forestLen rest + 1

/-- Emptiness test for a sibling list (`firstChild == rootNode`). -/
def forestIsNil : PForest → Bool
  | .nil => true
  | .cons _ _ => false

/-- Allocation step of the expansion loop (search.cpp lines 1129-1145 and
1273-1277): take the oldest recycled slot once the bin holds at least 40
nodes, otherwise advance the bump pointer.  Returns the updated arena and
whether a recycled slot was used. -/
def allocStep (ar : Arena) : Arena × Bool :=
  if 40 ≤ ar.binSize then ({ ar with binSize := ar.binSize - 1 }, true)
  else ({ ar with nextIdx := ar.nextIdx + 1 }, false)

/-- Out-of-memory check of the expansion loop (search.cpp lines 1279-1284):
once the bump pointer passes `table[nodeCount - 100]` while fewer than 100
recycled slots are available, raise the stop flag and emit the
running-out-of-memory info string. -/
def oomCheck (ctx : PnsCtx) (ar : Arena) : Arena :=
  if ctx.nodeCount - 100 < ar.nextIdx ∧ ar.binSize < 100 then
    { ar with stop := true, oomMsg := true }
  else ar

/-- Evaluation of a freshly created child node during expansion (search.cpp
lines 1127-1250): initialise with `(1 + n, 1)` at AND nodes and `(1, 1 + n)`
at OR nodes, then overwrite terminal cases (mate, stalemate, king-mobility
cap, bare attacker king, draw or target depth reached, tablebase verdicts).
`andNode` is the type of the created child, `childPly` its ply. -/
def evalChild (ctx : PnsCtx) (andNode : Bool) (childPly : Nat) (child : GPos) : Nat × Nat :=
  let n := gLen (movesOf child)
  let init := if andNode = true then (1 + n, 1) else (1, 1 + n)
  if n = 0 then
    if (infoOf child).inCheck = true then
      if andNode = true then (0, INFINITE) else (INFINITE, 0)
    else (INFINITE, 0)
  else if andNode = true ∧ ctx.kingMoves < 8 ∧ ctx.kingMoves < (kingCnt (movesOf child) : Int) then
    (INFINITE, 0)
  else if andNode = false ∧ (infoOf child).usCount = 1 then (INFINITE, 0)
  else if (infoOf child).isDraw = true ∨ childPly = ctx.targetDepth then (INFINITE, 0)
  else
    match (infoOf child).tb with
    | none => init
    | some w =>
      if w = WDL.Loss ∨ w = WDL.BlessedLoss then
        if andNode = false then (INFINITE, 0) else init
      else if w = WDL.Win ∨ w = WDL.CursedWin then
        if andNode = true then (INFINITE, 0) else init
      else (INFINITE, 0)

/-- Expansion loop of `pn_search()` (search.cpp lines 1100-1285): iterate the
ranked legal moves of the most-proving node at ply `p`, skipping non-root
moves at the root and non-checking moves at the frontier ply, creating one
child per remaining move; break as soon as a child settles the parent
(`pn == 0` under an AND parent layer, `dn == 0` under an OR one).  The
out-of-memory check runs after every non-breaking allocation. -/
def expandLoop (ctx : PnsCtx) (atRoot : Bool) (p : Nat) (andNode : Bool) :
    GMoves → Nat → Arena → PForest × Arena
  | .nil, _, ar => (.nil, ar)
  | .cons a child rest, mc, ar =>
    if atRoot = true ∧ a.isRootMove = false then
      expandLoop ctx atRoot p andNode rest mc ar
    else if p = ctx.targetDepth - 1 ∧ mc ≠ 0 ∧ a.givesCheck = false then
      expandLoop ctx atRoot p andNode rest mc ar
    else
      let pd := evalChild ctx andNode (p + 1) child
      let node := PTree.mk pd.1 pd.2 child .nil
      let ar1 := (allocStep ar).1
      if (andNode = true ∧ pd.1 = 0) ∨ (andNode = false ∧ pd.2 = 0) then
        (.cons node .nil, ar1)
      else
        let ar2 := oomCheck ctx ar1
        let r := expandLoop ctx atRoot p andNode rest (mc + 1) ar2
        (.cons node r.1, r.2)

/-- Child selection at an AND node (search.cpp lines 1009-1030): scan the
sibling list for the smallest disproof number, stopping early once a child
matches the parent's disproof number; returns the index of the best child. -/
def selAndIdx (curDn : Nat) : PForest → Nat → Nat → Option Nat → Option Nat
  | .nil, _, _, best => best
  | .cons t rest, minDN, i, best =>
    let minDN1 := if dnOf t < minDN then dnOf t else minDN
    let best1 := if dnOf t < minDN then some i else best
    if dnOf t = curDn then best1
    else selAndIdx curDn rest minDN1 (i + 1) best1

/-- Child selection at an OR node (search.cpp lines 1031-1051): smallest
proof number, with the analogous early exit. -/
def selOrIdx (curPn : Nat) : PForest → Nat → Nat → Option Nat → Option Nat
  | .nil, _, _, best => best
  | .cons t rest, minPN, i, best =>
    let minPN1 := if pnOf t < minPN then pnOf t else minPN
    let best1 := if pnOf t < minPN then some i else best
    if pnOf t = curPn then best1
    else selOrIdx curPn rest minPN1 (i + 1) best1

/-- Backpropagation fold at an AND node (search.cpp lines 1301-1331):
saturated sum of the children's proof numbers, minimum of their disproof
numbers (starting from `INFINITE + 1`), counting the recycling-bin pushes of
disproven children and their direct child lists. -/
def andFold : PForest → Nat → Nat → Nat → Nat × Nat × Nat
  | .nil, s, m, b => (s, m, b)
  | .cons t rest, s, m, b =>
    let s1 := min (s + pnOf t) INFINITE
    let m1 := min (dnOf t) m
    let b1 := if pnOf t = INFINITE ∧ dnOf t = 0 then b + 1 + forestLen (kidsOf t) else b
    andFold rest s1 m1 b1

/-- Backpropagation fold at an OR node (search.cpp lines 1333-1364): minimum
of the children's proof numbers, saturated sum of their disproof numbers,
counting the recycling-bin pushes of proven children. -/
def orFold : PForest → Nat → Nat → Nat → Nat × Nat × Nat
  | .nil, m, s, b => (m, s, b)
  | .cons t rest, m, s, b =>
    let m1 := if pnOf t < m then pnOf t else m
    let s1 := min (s + dnOf t) INFINITE
    let b1 := if pnOf t = 0 ∧ dnOf t = INFINITE then b + 1 + forestLen (kidsOf t) else b
    orFold rest m1 s1 b1

/-- Recomputation of one node on the backpropagation path from its current
children, by the parity of its ply; returns `(pn, dn, bin pushes)`. -/
def recomputeNode (ply : Nat) (kids : PForest) : Nat × Nat × Nat :=
  if ply % 2 = 1 then andFold kids 0 (INFINITE + 1) 0
  else orFold kids (INFINITE + 1) 0 0

/-- Expansion plus the first backpropagation step at the most-proving node:
generate the children (search.cpp lines 1085-1285, replacing any previous
`firstChild` link when at least one child is created) and recompute the
node's numbers from them (first round of the loop at lines 1297-1387). -/
def expandAt (ctx : PnsCtx) (atRoot : Bool) (pos : GPos) (oldKids : PForest)
    (ply : Nat) (ar : Arena) : PTree × Arena :=
  let andNode := decide ((ply + 1) % 2 = 1)
  let e := expandLoop ctx atRoot ply andNode (movesOf pos) 0 ar
  let kids :=
    match e.1 with
    | .nil => oldKids
    | k => k
  let rc := recomputeNode ply kids
  (PTree.mk rc.1 rc.2.1 pos kids, { e.2 with binSize := e.2.binSize + rc.2.2 })

mutual

/-- One iteration of the main loop of `pn_search()` below a given node
(search.cpp lines 992-1387): descend along most-proving children while the
current node is expanded and the target depth is not reached, expand the
selected leaf, and recompute every node on the selected path on the way back
(backpropagation), updating the recycling bin.  The degenerate selection
outcome `none` (possible only if a child carries a disproof or proof number
above `INFINITE`, which no created child ever does) leaves the node
unchanged.  Time and node budgets, PV bookkeeping and root-move scores do
not influence the tree and are not modelled. -/
def descendTree (ctx : PnsCtx) (atRoot : Bool) (t : PTree) (ply : Nat) (ar : Arena) :
    PTree × Arena :=
  match t with
  | .mk pn dn pos kids =>
    if forestIsNil kids = false ∧ ply < ctx.targetDepth then
      match (if ply % 2 = 1 then selAndIdx dn kids (INFINITE + 1) 0 none
             else selOrIdx pn kids (INFINITE + 1) 0 none) with
      | some i =>
        let r := descendForest ctx kids i (ply + 1) ar
        let rc := recomputeNode ply r.1
        (PTree.mk rc.1 rc.2.1 pos r.1, { r.2 with binSize := r.2.binSize + rc.2.2 })
      | none => (PTree.mk pn dn pos kids, ar)
    else expandAt ctx atRoot pos kids ply ar

/-- Replace the `i`-th sibling by the result of descending into it. -/
def descendForest (ctx : PnsCtx) : PForest → Nat → Nat → Arena → PForest × Arena
  | .nil, _, _, ar => (.nil, ar)
  | .cons t rest, 0, ply, ar =>
    let r := descendTree ctx false t ply ar
    (.cons r.1 rest, r.2)
  | .cons t rest, i + 1, ply, ar =>
    let r := descendForest ctx rest i ply ar
    (.cons t r.1, r.2)

end

/-- State of the proof-number search between two iterations of the main
`while (!Threads.stop.load())` loop. -/
structure PnsState : Type where
  root : PTree
  ar : Arena

/-- One round of the main PNS loop (search.cpp lines 992-1475): nothing
happens on a stopped search; otherwise run one
selection/expansion/evaluation/backpropagation iteration and then raise the
stop flag if the root is proved (`pn == 0`) or disproved (`dn == 0`).  The
node-budget and movetime stop conditions are external (wall clock, atomic
counters) and are not modelled. -/
def pnsStep (ctx : PnsCtx) (st : PnsState) : PnsState :=
  if st.ar.stop = true then st
  else
    let r := descendTree ctx true st.root 0 st.ar
    ⟨r.1, { r.2 with stop := (r.2.stop || decide (pnOf r.1 = 0 ∨ dnOf r.1 = 0)) }⟩

/-- Initial PNS state: the root saved with `(pn, dn) = (1, 1)` and no
children, the bump pointer at index 1 (index 0 is the sentinel root), an
empty recycling bin (search.cpp lines 964-988). -/
def pnsInit (pos : GPos) : PnsState :=
  ⟨PTree.mk 1 1 pos .nil, ⟨1, 0, false, false⟩⟩

/-- Sample quiet-move attributes for the PNS witnesses. -/
def qAttr : MoveAttr := ⟨0, .Queen, false, false, false, true⟩

/-- Sample leaf position (its content is never inspected by the traces). -/
def dummyLeaf : GPos := .mk ⟨false, false, 3, 0, false, none⟩ .nil

/-- Sample stalemate position: not in check, no legal moves. -/
def stalePos : GPos := .mk ⟨false, false, 3, 0, false, none⟩ .nil

/-- Sample defender position with a single legal reply leading to
stalemate. -/
def p1 : GPos := .mk ⟨false, false, 8, 0, false, none⟩ (.cons qAttr stalePos .nil)

/-- Sample defender position with five legal replies. -/
def p2 : GPos := .mk ⟨false, false, 8, 0, false, none⟩
  (.cons qAttr dummyLeaf (.cons qAttr dummyLeaf (.cons qAttr dummyLeaf
    (.cons qAttr dummyLeaf (.cons qAttr dummyLeaf .nil)))))

/-- Sample root position with two moves: one to `p1`, one to `p2`. -/
def rootPos5 : GPos := .mk ⟨false, false, 8, 0, false, none⟩
  (.cons qAttr p1 (.cons qAttr p2 .nil))

/-- Sample PNS configuration: caps disabled, `mate 3` (target depth 5), a
large arena. -/
def pnsCtx5 : PnsCtx := ⟨8, 5, 1000000⟩

/-- Sample PNS child with two legal replies, no terminal condition. -/
def pnsChild2 : GPos := .mk ⟨false, false, 8, 0, false, none⟩
  (.cons qAttr dummyLeaf (.cons qAttr dummyLeaf .nil))

/-- C4: a newly expanded child node that ends up non-terminal — `n` legal
replies with none of the terminal assignments of search.cpp lines 1163-1250
applying — keeps its initial numbers: `(pn, dn) = (1 + n, 1)` at an AND node
and `(1, 1 + n)` at an OR node (search.cpp line 1150). -/
theorem claim_C4 (ctx : PnsCtx) (andNode : Bool) (childPly : Nat) (child : GPos)
    (h0 : gLen (movesOf child) ≠ 0)
    (h1 : ¬(andNode = true ∧ ctx.kingMoves < 8 ∧
      ctx.kingMoves < (kingCnt (movesOf child) : Int)))
    (h2 : ¬(andNode = false ∧ (infoOf child).usCount = 1))
    (h3 : (infoOf child).isDraw = false)
    (h4 : childPly ≠ ctx.targetDepth)
    (h5 : (infoOf child).tb = none ∨
      ∃ w, (infoOf child).tb = some w ∧
        (((w = WDL.Loss ∨ w = WDL.BlessedLoss) ∧ andNode = true) ∨
         ((w = WDL.Win ∨ w = WDL.CursedWin) ∧ andNode = false))) :
    evalChild ctx andNode childPly child =
      (if andNode = true then (1 + gLen (movesOf child), 1)
       else (1, 1 + gLen (movesOf child))) := by
  have hdr : ¬((infoOf child).isDraw = true ∨ childPly = ctx.targetDepth) := by
    simp [h3, h4]
  simp only [evalChild]
  rw [if_neg h0, if_neg h1, if_neg h2, if_neg hdr]
  rcases h5 with hn | ⟨w, hw, hcase⟩
  · rw [hn]
  · rw [hw]
    rcases hcase with ⟨hl, ha⟩ | ⟨hl, ha⟩ <;> rcases hl with h | h <;> subst h <;> simp [ha]

/-- Witness for C4 at a concrete two-reply child of an AND layer. -/
theorem claim_C4_witness :
    gLen (movesOf pnsChild2) ≠ 0 ∧ (infoOf pnsChild2).isDraw = false ∧
    (1 : Nat) ≠ pnsCtx5.targetDepth ∧ (infoOf pnsChild2).tb = none ∧
    evalChild pnsCtx5 true 1 pnsChild2 =
      (if true = true then (1 + gLen (movesOf pnsChild2), 1)
       else (1, 1 + gLen (movesOf pnsChild2))) :=
  ⟨by decide, by decide, by decide, by decide,
    claim_C4 pnsCtx5 true 1 pnsChild2 (by decide) (by decide) (by decide) (by decide)
      (by decide) (Or.inl (by decide))⟩

/-- C5 counterexample: the root's proof number increases between two
consecutive iterations while staying below `INFINITE`.  From `rootPos5` with
target depth 5: after iteration 1 the root has `pn = 2` (children initialised
to `(2, 1)` and `(6, 1)`); iteration 2 expands the `(2, 1)` child, whose only
reply is a stalemate, so that child becomes disproven and the root's pn rises
to 6. -/
theorem claim_C5_counterexample :
    pnOf (pnsStep pnsCtx5 (pnsInit rootPos5)).root = 2 ∧
    pnOf (pnsStep pnsCtx5 (pnsStep pnsCtx5 (pnsInit rootPos5))).root = 6 ∧
    (2 : Nat) < INFINITE ∧ (6 : Nat) < INFINITE ∧ (2 : Nat) < 6 := by
  refine ⟨by decide, by decide, by decide, by decide, by decide⟩

/-- C5 amended: the root's pn and dn are not monotone across iterations (they
can increase while finite, see the counterexample); what the main loop does
guarantee is that as soon as an iteration ends with the root proved
(`pn == 0`) or disproved (`dn == 0`) the stop flag is raised, and a stopped
search performs no further iteration, so the root's numbers no longer change
(search.cpp lines 992 and 1419-1421). -/
theorem claim_C5_amended (ctx : PnsCtx) (st : PnsState) :
    ((pnOf (pnsStep ctx st).root = 0 ∨ dnOf (pnsStep ctx st).root = 0) →
      (pnsStep ctx st).ar.stop = true) ∧
    (st.ar.stop = true → pnsStep ctx st = st) := by
  constructor
  · intro h
    by_cases hs : st.ar.stop = true
    · simp [pnsStep, hs]
    · simp only [pnsStep, hs, Bool.false_eq_true, if_false] at h ⊢
      simp [h]
  · intro hs
    simp [pnsStep, hs]

/-- Witness for C5 amended: a stopped state is left untouched. -/
theorem claim_C5_amended_witness :
    (PnsState.mk (PTree.mk 1 1 rootPos5 .nil) ⟨1, 0, true, false⟩).ar.stop = true ∧
    pnsStep pnsCtx5 (PnsState.mk (PTree.mk 1 1 rootPos5 .nil) ⟨1, 0, true, false⟩) =
      PnsState.mk (PTree.mk 1 1 rootPos5 .nil) ⟨1, 0, true, false⟩ :=
  ⟨rfl, (claim_C5_amended pnsCtx5 (PnsState.mk (PTree.mk 1 1 rootPos5 .nil)
    ⟨1, 0, true, false⟩)).2 rfl⟩

/-- C9: when the bump pointer passes index `nodeCount - 100` while the
recycling bin holds fewer than 100 freed slots, the expansion's allocation
check raises the stop flag and emits the running-out-of-memory info string
(search.cpp lines 1279-1284); a stopped search performs no further iteration
of the main loop and simply returns what it has (lines 992 and 1477-1487). -/
theorem claim_C9 (ctx : PnsCtx) (ar : Arena) (st : PnsState)
    (h1 : ctx.nodeCount - 100 < ar.nextIdx) (h2 : ar.binSize < 100)
    (h3 : st.ar.stop = true) :
    ((oomCheck ctx ar).stop = true ∧ (oomCheck ctx ar).oomMsg = true) ∧
    pnsStep ctx st = st := by
  refine ⟨?_, by simp [pnsStep, h3]⟩
  unfold oomCheck
  rw [if_pos ⟨h1, h2⟩]
  exact ⟨rfl, rfl⟩

/-- Witness for C9: a nearly full arena with an empty bin, and a stopped
state. -/
theorem claim_C9_witness :
    (1000000 : Nat) - 100 < 999901 ∧ (0 : Nat) < 100 ∧
    ((oomCheck pnsCtx5 ⟨999901, 0, false, false⟩).stop = true ∧
      (oomCheck pnsCtx5 ⟨999901, 0, false, false⟩).oomMsg = true) ∧
    pnsStep pnsCtx5 (PnsState.mk (PTree.mk 1 1 rootPos5 .nil) ⟨1, 0, true, false⟩) =
      PnsState.mk (PTree.mk 1 1 rootPos5 .nil) ⟨1, 0, true, false⟩ :=
  ⟨by decide, by decide,
    (claim_C9 pnsCtx5 ⟨999901, 0, false, false⟩
      (PnsState.mk (PTree.mk 1 1 rootPos5 .nil) ⟨1, 0, true, false⟩)
      (by decide) (by decide) rfl).1,
    (claim_C9 pnsCtx5 ⟨999901, 0, false, false⟩
      (PnsState.mk (PTree.mk 1 1 rootPos5 .nil) ⟨1, 0, true, false⟩)
      (by decide) (by decide) rfl).2⟩

/-- Null-move encoding `MOVE_NULL` (src/move.h: `Move::null()` is `Move(65)`,
origin and destination both square 1). -/
def MOVE_NULL : Nat := 65

/-- None-move encoding `MOVE_NONE` (src/move.h: `Move::none()` is `Move(0)`). -/
def MOVE_NONE : Nat := 0

/-- Move-type flag `PROMOTION = 1 << 14` (src/move.h). -/
def PROMOTION : Nat := 1 <<< 14

/-- Move-type flag `EN_PASSANT = 2 << 14` (src/move.h). -/
def EN_PASSANT : Nat := 2 <<< 14

/-- Move-type flag `CASTLING = 3 << 14` (src/move.h). -/
def CASTLING : Nat := 3 <<< 14

/-- Origin square of a 16-bit move encoding (src/move.h). -/
def from_sq (m : Nat) : Nat := (m >>> 6) &&& 63

/-- Destination square of a 16-bit move encoding (src/move.h). -/
def to_sq (m : Nat) : Nat := m &&& 63

/-- Move type bits of a 16-bit move encoding (src/move.h). -/
def type_of (m : Nat) : Nat := m &&& (3 <<< 14)

/-- Promotion piece of a move encoding, `KNIGHT = 2` based (src/move.h). -/
def promotion_type (m : Nat) : Nat := ((m >>> 12) &&& 3) + 2

/-- File of a square (0 = file a). -/
def file_of (s : Nat) : Nat := s &&& 7

/-- Rank of a square (0 = rank 1). -/
def rank_of (s : Nat) : Nat := s >>> 3

/-- Square from file and rank. -/
def make_square (f r : Nat) : Nat := (r <<< 3) + f

/-- Transcription of `UCI::square` (uci.cpp lines 294-296): two characters,
file letter then rank digit. -/
def uciSquare (s : Nat) : String :=
  String.mk [Char.ofNat (97 + file_of s), Char.ofNat (49 + rank_of s)]

/-- Character for a promotion piece: the C++ indexing `" pnbrqk"[pt]`
(uci.cpp line 321) written out per index. -/
def promoChar (pt : Nat) : Char :=
  if pt = 1 then Char.ofNat 112
  else if pt = 2 then Char.ofNat 110
  else if pt = 3 then Char.ofNat 98
  else if pt = 4 then Char.ofNat 114
  else if pt = 5 then Char.ofNat 113
  else if pt = 6 then Char.ofNat 107
  else Char.ofNat 32

/-- Castling display adjustment of `UCI::move` (uci.cpp lines 315-316): in
normal chess mode a castling move is printed with the king's g- or c-file
destination instead of the internal king-captures-rook encoding. -/
def castleAdjTo (m : Nat) (chess960 : Bool) : Nat :=
  if type_of m = CASTLING ∧ chess960 = false then
    make_square (if from_sq m < to_sq m then 6 else 2) (rank_of (from_sq m))
  else to_sq m

/-- Transcription of `UCI::move` (uci.cpp lines 304-324): `"(none)"` for
`MOVE_NONE`, `"0000"` for `MOVE_NULL`, otherwise origin and (castling
adjusted) destination in coordinate notation plus a promotion letter.  The
destination adjustment is factored into `castleAdjTo`. -/
def uciMove (m : Nat) (chess960 : Bool) : String :=
  if m = MOVE_NONE then "(none)"
  else if m = MOVE_NULL then "0000"
  else if type_of m = PROMOTION then
    (uciSquare (from_sq m) ++ uciSquare (castleAdjTo m chess960)).push
      (promoChar (promotion_type m))
  else uciSquare (from_sq m) ++ uciSquare (castleAdjTo m chess960)

/-- ASCII lowercase conversion (`tolower` as used on the promotion letter). -/
def lowerChar (c : Char) : Char :=
  if 65 ≤ c.toNat ∧ c.toNat ≤ 90 then Char.ofNat (c.toNat + 32) else c

/-- Transcription of the case fix in `UCI::to_move` (uci.cpp lines 332-333):
a five-character move string gets its fifth character lowercased. -/
def fixPromoCase (s : String) : String :=
  if s.length = 5 then String.mk (s.data.take 4 ++ (s.data.drop 4).map lowerChar)
  else s

/-- Transcription of `UCI::to_move` (uci.cpp lines 330-340): return the first
legal move whose `UCI::move` rendering equals the given string, else
`MOVE_NONE`.  The position is represented by its legal move list (the move
generator is an external collaborator). -/
def to_move (legal : List Nat) (chess960 : Bool) (str : String) : Nat :=
  let str1 := fixPromoCase str
  match legal.find? (fun mv => uciMove mv chess960 == str1) with
  | some mv => mv
  | none => MOVE_NONE

/-- Modelled from the spec: upstream Stockfish `PawnValueEg = 208` (types.h is
not among the sources); only the centipawn divisor of `UCI::value` uses it,
and the claims below only evaluate it at score 0. -/
def PawnValueEg : Int := 208

/-- Transcription of `UCI::value` (uci.cpp lines 277-289): centipawns for
scores away from mate, otherwise a mate distance in moves.  The C++ integer
division truncates toward zero, hence `Int.tdiv`. -/
def uciValue (v : Int) : String :=
  if (v.natAbs : Int) < VALUE_MATE - (MAX_PLY : Int) then
    "cp " ++ toString (Int.tdiv (v * 100) PawnValueEg)
  else
    "mate " ++ toString (Int.tdiv (if 0 < v then VALUE_MATE - v + 1 else -VALUE_MATE - v) 2)

/-- Transcription of the no-legal-root-moves branch of `MainThread::search`
(search.cpp lines 319-329): a depth-0 info line whose score is `-VALUE_MATE`
when in check and `VALUE_DRAW` otherwise, then a bestmove line printing
`UCI::move(MOVE_NULL, ...)`. -/
def noRootMovesLines (inCheck : Bool) (chess960 : Bool) : List String :=
  ["info depth 0 score " ++ uciValue (if inCheck = true then -VALUE_MATE else VALUE_DRAW),
   "bestmove " ++ uciMove MOVE_NULL chess960]

/-- Fields of `RootMove` participating in its ordering (search.h lines
66-82). -/
structure RootMoveL : Type where
  score : Int
  previousScore : Int
  tbRank : Int
deriving DecidableEq, Repr

/-- Transcription of `RootMove::operator<` (search.h lines 70-73): descending
by score, ties compared by `previousScore` descending. -/
def rootMoveLt (a b : RootMoveL) : Bool :=
  if b.score ≠ a.score then decide (b.score < a.score)
  else decide (b.previousScore < a.previousScore)

/-- RootMove ordering as claim C6 states it (this definition follows the
claim's words, not the source, and exists only to be compared against
`rootMoveLt`): descending by score with ties broken by `tbRank`
descending. -/
def rootMoveLtClaim (a b : RootMoveL) : Bool :=
  if b.score ≠ a.score then decide (b.score < a.score)
  else decide (b.tbRank < a.tbRank)

/-- Tokens of a `go` command as split by the input stream; numeric arguments
arrive already parsed (`is >> n`), `searchmoves` carries every remaining
token of the line (the inner while loop of uci.cpp lines 117-119 consumes
them all). -/
inductive GoTok : Type where
  | searchmoves (rest : List String)
  | depth (n : Int)
  | mate (n : Int)
  | nodes (n : Int)
  | movetime (n : Int)
  | perft (n : Int)
  | infinite
deriving DecidableEq, Repr

/-- Limit fields set by `go` parsing (search.h `LimitsType`, restricted to
the fields the `go` handler writes). -/
structure GoLimits : Type where
  searchmoves : List Nat
  movetime : Int
  nodes : Int
  mate : Int
  perft : Int
  infinite : Int
deriving DecidableEq, Repr

/-- Zero-initialised limits (`LimitsType` constructor, search.h lines
130-134). -/
def goLimitsInit : GoLimits := ⟨[], 0, 0, 0, 0, 0⟩

/-- Transcription of the token loop of `go()` (uci.cpp lines 115-127): note
that both `depth` and `mate` write `limits.mate`. -/
def goParse (legal : List Nat) (chess960 : Bool) : List GoTok → GoLimits → GoLimits
  | [], l => l
  | .searchmoves rest :: _, l =>
    { l with searchmoves := l.searchmoves ++ rest.map (to_move legal chess960) }
  | .depth n :: ts, l => goParse legal chess960 ts { l with mate := n }
  | .mate n :: ts, l => goParse legal chess960 ts { l with mate := n }
  | .nodes n :: ts, l => goParse legal chess960 ts { l with nodes := n }
  | .movetime n :: ts, l => goParse legal chess960 ts { l with movetime := n }
  | .perft n :: ts, l => goParse legal chess960 ts { l with perft := n }
  | .infinite :: ts, l => goParse legal chess960 ts { l with infinite := 1 }

/-- Warning printed by `go()` when no mate limit was given (uci.cpp lines
135-136). -/
def goWarningMsg : String :=
  "info string Infinite analysis or game playing mode not supported!\nPlease set a depth or mate limit."

/-- Transcription of the tail of `go()` (uci.cpp lines 133-139): if parsing
left `mate == 0`, print the warning and force `mate = 1`; the resulting
limits are what the search is started with.  This is a total function: no
input aborts the program. -/
def goRun (legal : List Nat) (chess960 : Bool) (toks : List GoTok) :
    GoLimits × List String :=
  let l := goParse legal chess960 toks goLimitsInit
  if l.mate = 0 then ({ l with mate := 1 }, [goWarningMsg])
  else (l, [])

/-- C6 counterexample: two root moves with equal scores and distinct
`tbRank`.  The order the claim states would put the higher `tbRank` first,
but `RootMove::operator<` compares `previousScore` (never written by the
engine), so the two compare as equivalent. -/
theorem claim_C6_counterexample :
    rootMoveLt ⟨0, 0, 2⟩ ⟨0, 0, 1⟩ = false ∧
    rootMoveLtClaim ⟨0, 0, 2⟩ ⟨0, 0, 1⟩ = true := by
  refine ⟨by decide, by decide⟩

/-- C6 amended: the `RootMove` ordering is descending by `score`; for equal
scores the tie is broken by `previousScore` descending (a field the engine
never modifies), and `tbRank` plays no part in the comparison (search.h
lines 70-73). -/
theorem claim_C6_amended (a b : RootMoveL) :
    (b.score < a.score → rootMoveLt a b = true) ∧
    (a.score < b.score → rootMoveLt a b = false) ∧
    (a.score = b.score → a.previousScore = b.previousScore →
      rootMoveLt a b = false ∧ rootMoveLt b a = false) ∧
    (∀ t1 t2 : Int,
      rootMoveLt ⟨a.score, a.previousScore, t1⟩ ⟨b.score, b.previousScore, t2⟩ =
        rootMoveLt a b) := by
  refine ⟨?_, ?_, ?_, ?_⟩
  · intro h
    simp only [rootMoveLt, if_pos (by omega : b.score ≠ a.score)]
    exact decide_eq_true h
  · intro h
    simp only [rootMoveLt, if_pos (by omega : b.score ≠ a.score)]
    simp
    omega
  · intro h1 h2
    constructor <;> simp [rootMoveLt, h1, h2]
  · intro t1 t2
    simp [rootMoveLt]

/-- Witness for C6 amended at concrete root moves. -/
theorem claim_C6_amended_witness :
    (3 : Int) < 5 ∧ rootMoveLt ⟨5, 0, 1⟩ ⟨3, 0, 9⟩ = true :=
  ⟨by decide, (claim_C6_amended ⟨5, 0, 1⟩ ⟨3, 0, 9⟩).1 (by decide)⟩

/-- C7 counterexample: with no legal root move and the side to move in check,
the engine emits `info depth 0 score mate 0` followed by `bestmove 0000` —
not `bestmove (none)` as the claim states, because `MainThread::search`
passes `MOVE_NULL` (printed `"0000"`), not `MOVE_NONE` (printed `"(none)"`),
to `UCI::move` (search.cpp line 326, uci.cpp lines 309-313). -/
theorem claim_C7_counterexample :
    noRootMovesLines true false = ["info depth 0 score mate 0", "bestmove 0000"] ∧
    ("bestmove 0000" : String) ≠ "bestmove (none)" := by
  refine ⟨by decide, by decide⟩

/-- C7 amended: starting a `go` search with no legal root moves emits a
depth-0 info line whose score is `mate 0` when the side to move is in check
and `cp 0` otherwise, followed by `bestmove 0000` (the null-move notation,
since the code prints `MOVE_NULL`). -/
theorem claim_C7_amended (chess960 : Bool) :
    noRootMovesLines true chess960 = ["info depth 0 score mate 0", "bestmove 0000"] ∧
    noRootMovesLines false chess960 = ["info depth 0 score cp 0", "bestmove 0000"] := by
  cases chess960 <;> exact ⟨by decide, by decide⟩

/-- C8: whenever `go` parsing leaves `mate == 0` (no `mate` or `depth`
token, or an explicit zero — in particular plain `go` and `go infinite`),
the engine prints the warning info string and starts the search with the
limits' mate field forced to 1; the handler is total and never aborts
(uci.cpp lines 133-139). -/
theorem claim_C8 (legal : List Nat) (chess960 : Bool) (toks : List GoTok)
    (h : (goParse legal chess960 toks goLimitsInit).mate = 0) :
    (goRun legal chess960 toks).1.mate = 1 ∧
    goWarningMsg ∈ (goRun legal chess960 toks).2 := by
  unfold goRun
  simp [h]

/-- Witness for C8 on `go infinite`. -/
theorem claim_C8_witness :
    (goParse [] false [GoTok.infinite] goLimitsInit).mate = 0 ∧
    (goRun [] false [GoTok.infinite]).1.mate = 1 ∧
    goWarningMsg ∈ (goRun [] false [GoTok.infinite]).2 :=
  ⟨by decide, claim_C8 [] false [GoTok.infinite] (by decide)⟩

/-- Case-fixing a four-character string is the identity. -/
theorem fixPromoCase_len4 (c1 c2 c3 c4 : Char) :
    fixPromoCase (String.mk [c1, c2, c3, c4]) = String.mk [c1, c2, c3, c4] := rfl

/-- Case-fixing a five-character string only lowercases the last character. -/
theorem fixPromoCase_push4 (c1 c2 c3 c4 c : Char) (h : lowerChar c = c) :
    fixPromoCase (String.mk [c1, c2, c3, c4, c]) = String.mk [c1, c2, c3, c4, c] := by
  show String.mk [c1, c2, c3, c4, lowerChar c] = String.mk [c1, c2, c3, c4, c]
  rw [h]

/-- Promotion letters are already lowercase. -/
theorem lowerChar_promoChar (p : Nat) : lowerChar (promoChar p) = promoChar p := by
  unfold promoChar
  split_ifs <;> decide

/-- Strings produced by `uciMove` pass `fixPromoCase` unchanged. -/
theorem fixPromoCase_uciMove (m : Nat) (c960 : Bool) :
    fixPromoCase (uciMove m c960) = uciMove m c960 := by
  unfold uciMove
  by_cases h0 : m = MOVE_NONE
  · rw [if_pos h0]
    decide
  · rw [if_neg h0]
    by_cases h1 : m = MOVE_NULL
    · rw [if_pos h1]
      decide
    · rw [if_neg h1]
      by_cases hp : type_of m = PROMOTION
      · rw [if_pos hp]
        exact fixPromoCase_push4 _ _ _ _ _ (lowerChar_promoChar _)
      · rw [if_neg hp]
        exact fixPromoCase_len4 _ _ _ _

/-- C10 counterexample: the round-trip fails on the modelled move oracle.
The spec describes the move generator only as producing legal moves, so a
position is modelled by its legal move list; on the list containing the
normal-move encoding 2347 (e5 to d6) and the en-passant encoding 35115 (the
same squares with the en-passant flag) both render as `"e5d6"`, and
`to_move` returns the first, so the en-passant move does not round-trip. -/
theorem claim_C10_counterexample :
    (35115 : Nat) ∈ [2347, 35115] ∧
    uciMove 35115 false = uciMove 2347 false ∧
    to_move [2347, 35115] false (uciMove 35115 false) = 2347 ∧
    (2347 : Nat) ≠ 35115 := by
  refine ⟨by decide, by decide, by decide, by decide⟩

/-- C10 amended: the round-trip `to_move(pos, move(m))` returns `m` for every
legal move `m` whose rendering is not shared with another legal move of the
position, i.e. whenever `UCI::move` is injective on the legal-move list; the
encoder alone does not guarantee that injectivity (en-passant/normal and, in
normal chess, castling/king-step encodings can collide as strings), board
legality must rule the collisions out. -/
theorem claim_C10_amended (legal : List Nat) (c960 : Bool) (m : Nat)
    (hm : m ∈ legal)
    (hinj : ∀ m2 ∈ legal, uciMove m2 c960 = uciMove m c960 → m2 = m) :
    to_move legal c960 (uciMove m c960) = m := by
  unfold to_move
  rw [fixPromoCase_uciMove]
  show (match List.find? (fun mv => uciMove mv c960 == uciMove m c960) legal with
        | some mv => mv
        | none => MOVE_NONE) = m
  induction legal with
  | nil => cases hm
  | cons x xs ih =>
    cases hb : uciMove x c960 == uciMove m c960 with
    | true =>
      simp only [List.find?_cons, hb]
      exact hinj x (List.mem_cons_self x xs) (by simpa using hb)
    | false =>
      simp only [List.find?_cons, hb]
      have hmx : m ∈ xs := by
        rcases List.mem_cons.mp hm with h | h
        · subst h
          simp at hb
        · exact h
      exact ih hmx (fun m2 h2 => hinj m2 (List.mem_cons_of_mem _ h2))

/-- Witness for C10 amended: a two-move list with distinct renderings. -/
theorem claim_C10_amended_witness :
    (2347 : Nat) ∈ [2347, 788] ∧
    to_move [2347, 788] false (uciMove 2347 false) = 2347 :=
  ⟨by decide, claim_C10_amended [2347, 788] false 2347 (by decide)
    (by intro m2 h2 h3; revert h3; fin_cases h2 <;> decide)⟩

end Matefish
